import Mathlib

/-!
Shallow embedding of the fault-tolerant Python parser core of this
repository (`jedi/parsing.py`) together with the API helper module
(`jedi/api/helpers.py`), and theorems settling the specification's
claims against the embedded code.

Conventions used throughout:
* Python `(line, column)` tuples become `Pos := Nat × Nat`.
* Python `None` becomes `Option.none`; attribute access on `None`
  is modelled by the error value `PErr.attributeError`.
* The mutable `Call`/`Array` tree of the statement sub-parser is
  modelled by an explicit heap (`Heap`) of numbered nodes, so that
  the source's parent-pointer mutations translate one-for-one.
* All functions are fuel-bounded where the source loops on a
  condition rather than on structure; exhausted fuel is the
  distinguished error `PErr.fuel`, which never occurs in the
  concrete runs below.
-/

namespace Jedi

/-- A `(line, column)` position, 1-indexed by line, 0-indexed by column. -/
abbrev Pos := Nat × Nat

/-- Lexicographic strict order on positions, exactly Python's `<` on pairs. -/
def posLt (a b : Pos) : Bool :=
  a.1 < b.1 || (a.1 == b.1 && a.2 < b.2)

/-- Lexicographic `<=` on positions, exactly Python's `<=` on pairs. -/
def posLe (a b : Pos) : Bool :=
  posLt a b || a == b

/-- The exceptional outcomes of the embedded code.  `stopIteration`
stands for both `StopIteration` and `common.MultiLevelStopIteration`
(the parser treats them identically); `attributeError` models Python
attribute access on `None`; `indexError` models `list.pop()` on an
empty list; `unsupported` marks constructs outside the embedded
fragment of the source; `fuel` marks fuel exhaustion of the model. -/
inductive PErr where
  | stopIteration
  | attributeError
  | indexError
  | unsupported
  | fuel
deriving DecidableEq, Repr

/-- Python's `str.endswith`, written as a suffix comparison on the
character list so that proofs reduce (core's `String.endsWith` is
defined by well-founded recursion, which the kernel cannot unfold). -/
def strEndsWith (s post : String) : Bool :=
  List.isSuffixOf post.data s.data

/-- Python's `str.startswith`, likewise on the character list. -/
def strStartsWith (s pre : String) : Bool :=
  List.isPrefixOf pre.data s.data

/-- Decimal digits to a number, kernel-reducible. -/
def decDigits : List Char → Nat → Option Nat
  | [], acc => some acc
  | c :: cs, acc =>
    if c.isDigit then decDigits cs (acc * 10 + (c.toNat - 48)) else none

/-- A decimal integer literal, kernel-reducible. -/
def strToIntDec (s : String) : Option Int :=
  match s.data with
  | [] => none
  | cs => (decDigits cs 0).map Int.ofNat

/-- `SubModule.is_builtin` (parsing.py, lines 329-330):
`return not (self.path is None or self.path.endswith('.py'))`. -/
def is_builtin (path : Option String) : Bool :=
  !(path.isNone || strEndsWith (path.getD "") ".py")

/-- The property the specification words state for `is_builtin`:
the path is absent, or does not end with `.py`. -/
def specBuiltinPred (path : Option String) : Prop :=
  path = none ∨ ∃ p, path = some p ∧ strEndsWith p ".py" = false

instance (path : Option String) : Decidable (specBuiltinPred path) := by
  unfold specBuiltinPred
  cases path with
  | none => exact .isTrue (Or.inl rfl)
  | some p =>
    by_cases h : strEndsWith p ".py" = false
    · exact .isTrue (Or.inr ⟨p, rfl, h⟩)
    · refine .isFalse ?_
      rintro (hc | ⟨q, hq, hq2⟩)
      · exact Option.noConfusion hc
      · cases Option.some.injEq .. ▸ hq
        exact h (by simpa using hq2)

/-! ### Flow chains (parsing.py, `Flow`, lines 460-553)

Only the fields involved in the claimed invariant are modelled: the
`_parent` backing field and the `next` chain.  `parent` assignment is
the property setter of lines 504-508 (it writes `_parent` and, when a
tail exists, recursively assigns the tail's `parent`); `set_next` is
lines 546-553 (walk to the end of the chain, attach, and assign the
new tail's `parent` — through the same setter — to the attach point's
`parent`).  The parent value is abstract (`Option α`, `none` standing
for Python `None`). -/

inductive Flow (α : Type) where
  | mk (parent : Option α) (next : Option (Flow α))

/-- The `parent` property setter of `Flow` (lines 504-508):
`self._parent = value; if self.next: self.next.parent = value`. -/
def Flow.setParent {α : Type} : Flow α → Option α → Flow α
  | .mk _ none, v => .mk v none
  | .mk _ (some nx), v => .mk v (some (nx.setParent v))

/-- `Flow.set_next` (lines 546-553): walk the chain to its end, set
`self.next = next` there and assign `self.next.parent = self.parent`
(an assignment through the propagating setter). -/
def Flow.set_next {α : Type} : Flow α → Flow α → Flow α
  | .mk p none, g => .mk p (some (g.setParent p))
  | .mk p (some nx), g => .mk p (some (nx.set_next g))

/-- The `_parent` field of the head of a flow chain. -/
def Flow.headParent {α : Type} : Flow α → Option α
  | .mk p _ => p

/-- The `_parent` fields of all the elements of a flow chain,
head first. -/
def Flow.parents {α : Type} : Flow α → List (Option α)
  | .mk p none => [p]
  | .mk p (some nx) => p :: nx.parents

/-- The invariant claimed for flow chains: every element of the chain
(head and all tails) carries the head's parent. -/
def Flow.sameParent {α : Type} (f : Flow α) : Prop :=
  ∀ p ∈ f.parents, p = f.headParent

theorem Flow.parents_setParent {α : Type} :
    ∀ (f : Flow α) (v : Option α), ∀ p ∈ (f.setParent v).parents, p = v
  | .mk _ none, v => by
    intro p hp2
    simpa [Flow.setParent, Flow.parents] using hp2
  | .mk _ (some g), v => by
    intro p hp2
    simp only [Flow.setParent, Flow.parents, List.mem_cons] at hp2
    rcases hp2 with h | h
    · exact h
    · exact Flow.parents_setParent g v p h

theorem Flow.headParent_setParent {α : Type} (f : Flow α) (v : Option α) :
    (f.setParent v).headParent = v := by
  cases f with
  | mk p nx => cases nx <;> rfl

theorem Flow.headParent_set_next {α : Type} (f g : Flow α) :
    (f.set_next g).headParent = f.headParent := by
  cases f with
  | mk p nx => cases nx <;> rfl

theorem Flow.sameParent_setParent {α : Type} (f : Flow α) (v : Option α) :
    (f.setParent v).sameParent := by
  intro p hp
  rw [Flow.headParent_setParent]
  exact Flow.parents_setParent f v p hp

theorem Flow.headParent_mem_parents {α : Type} (f : Flow α) :
    f.headParent ∈ f.parents := by
  cases f with
  | mk p nx => cases nx <;> simp [Flow.parents, Flow.headParent]

theorem Flow.sameParent_set_next {α : Type} :
    ∀ (f g : Flow α), f.sameParent → (f.set_next g).sameParent
  | .mk hp none, g => by
    intro _ p hmem
    simp only [Flow.set_next, Flow.parents, List.mem_cons] at hmem
    rcases hmem with h1 | h1
    · simp [h1, Flow.set_next, Flow.headParent]
    · simp only [Flow.set_next, Flow.headParent]
      exact Flow.parents_setParent g hp p h1
  | .mk hp (some nxf), g => by
    intro h p hmem
    have hhd : nxf.headParent = hp :=
      h nxf.headParent (by simp [Flow.parents, nxf.headParent_mem_parents])
    simp only [Flow.set_next, Flow.parents, List.mem_cons] at hmem
    rcases hmem with h1 | h1
    · simp [h1, Flow.set_next, Flow.headParent]
    · have hnx : nxf.sameParent := by
        intro q hq
        rw [hhd]
        exact h q (by simp [Flow.parents, hq])
      have := Flow.sameParent_set_next nxf g hnx p h1
      rw [Flow.headParent_set_next, hhd] at this
      simpa [Flow.set_next, Flow.headParent] using this

/-! ### Names and statements (parsing.py, lines 660-937, 1172-1223) -/

/-- `NamePart` (lines 1172-1196): one dotted segment of a name, a
string with its own start position.  (The back-link to the containing
`Name` is ownership only and is dropped.) -/
structure NamePart where
  text : String
  startPos : Pos
deriving DecidableEq, Repr

/-- `Name` (lines 1199-1223): an ordered sequence of `NamePart`s with
a start and end position. -/
structure Name where
  names : List NamePart
  startPos : Pos
  endPos : Pos
deriving DecidableEq, Repr

/-- `Name.get_code` (lines 1215-1217): the parts joined with `.`. -/
def Name.get_code (n : Name) : String :=
  String.intercalate "." (n.names.map (·.text))

/-- The token kinds of Python's `tokenize` module that the parser
distinguishes. -/
inductive TokType where
  | NAME | NUMBER | STRING | OP | NEWLINE | NL | INDENT | DEDENT | COMMENT | ENDMARKER
deriving DecidableEq, Repr

/-- One element of a `Statement.token_list`: either a raw
`(token_type, text, start_pos)` triple or an already-parsed `Name`
(lines 675-676: a "token list which is also peppered with Name").
List comprehensions are outside the embedded fragment. -/
inductive StmtTok where
  | tok (typ : TokType) (text : String) (pos : Pos)
  | name (n : Name)
deriving DecidableEq, Repr

/-- `Statement` (lines 660-699), immutable fields only; the lazy
`_assignment_calls` cache is modelled separately by `StmtState`
below.  Parent links are ownership only and are dropped. -/
structure Statement where
  code : String
  set_vars : List Name
  used_funcs : List Name
  used_vars : List Name
  token_list : List StmtTok
  startPos : Pos
  endPos : Pos
deriving DecidableEq, Repr

/-- The value carried by `last` in
`Statement._remove_executions_from_set_vars`: a `Name` object, or the
text of a raw token after `tok = tok[1]`. -/
abbrev LastTok := Option (Name ⊕ String)

/-- The loop of `Statement._remove_executions_from_set_vars`
(lines 712-730): walk the token list, count bracket nesting opened
directly after a `Name` (`in_execution`), drop names met inside such
an execution, and stop at the first name not in the running set. -/
def removeExecLoop : List StmtTok → List Name → LastTok → Nat → List Name
  | [], result, _, _ => result
  | t :: rest, result, last, inExec =>
    match t with
    | .name n =>
      if n ∉ result then result
      else
        let result := if inExec ≠ 0 then result.erase n else result
        -- a `Name` is never equal to the bracket strings, so only
        -- `last` is updated by the trailing bracket checks
        removeExecLoop rest result (some (Sum.inl n)) inExec
    | .tok _ text _ =>
      let inExec :=
        if (text = "(" || text = "[") && (match last with
            | some (Sum.inl _) => true
            | _ => false) then
          inExec + 1
        else if (text = ")" || text = "]") && inExec > 0 then
          inExec - 1
        else inExec
      removeExecLoop rest result (some (Sum.inr text)) inExec

/-- `Statement._remove_executions_from_set_vars` (lines 701-730).
The Python `set(set_vars)` is modelled as a duplicate-free list; the
statements built in this file never carry duplicate names. -/
def remove_executions_from_set_vars (set_vars : List Name)
    (token_list : List StmtTok) : List Name :=
  if set_vars = [] then set_vars
  else removeExecLoop token_list set_vars.dedup none 0

/-- The `Statement` constructor (lines 684-699): stores the fields
and filters `set_vars` through
`_remove_executions_from_set_vars`. -/
def mkStatement (code : String) (set_vars used_funcs used_vars : List Name)
    (token_list : List StmtTok) (startPos endPos : Pos) : Statement :=
  { code := code
    set_vars := remove_executions_from_set_vars set_vars token_list
    used_funcs := used_funcs
    used_vars := used_vars
    token_list := token_list
    startPos := startPos
    endPos := endPos }

/-- `Import` (lines 576-609): the stored fields of an import node.
Parent links are dropped. -/
structure Import where
  namespc : Option Name
  «alias» : Option Name
  from_ns : Option Name
  star : Bool
  relative_count : Nat
  defunct : Bool
  startPos : Pos
  endPos : Pos
deriving DecidableEq, Repr

/-- A node that `Parser._check_user_stmt` can receive: a `Statement`
or an `Import` (the two kinds the embedded fragment produces). -/
inductive Simple where
  | stmt (s : Statement)
  | imp (i : Import)
deriving DecidableEq, Repr

/-- `SubModule` (lines 277-330), restricted to the fields the claims
touch.  `used_names` (a Python dict of sets) is an association list
from identifier text to the list of distinct nodes recorded for it;
`temp_used_names` is the pending-name buffer flushed by
`_check_user_stmt`.  The embedded fragment parses at module level
only, so the scope containers (`statements`, `imports`, `asserts`)
live here as well (`Scope.__init__`, lines 133-139). -/
structure ModuleState where
  path : Option String
  used_names : List (String × List Simple)
  temp_used_names : List String
  statements : List Statement
  imports : List Import
  asserts : List Statement
  docstr : String
  global_vars : List Name
  line_offset : Nat
  startPos : Pos
  endPos : Pos
deriving DecidableEq, Repr

/-- `SubModule.__init__` (lines 283-293) as reached from
`Parser.__init__` line 1267: empty containers, `line_offset = 0`,
start position `(line_offset + 1, 0)`. -/
def initModule (path : Option String) (startPos : Pos) : ModuleState :=
  { path := path
    used_names := []
    temp_used_names := []
    statements := []
    imports := []
    asserts := []
    docstr := ""
    global_vars := []
    line_offset := 0
    startPos := startPos
    endPos := (0, 0) }

/-- `self.module.used_names[tok_name].add(simple)` with the
`KeyError` fallback `used_names[tok_name] = set([simple])`
(lines 1306-1309).  Sets are duplicate-free lists here. -/
def addUsedName : List (String × List Simple) → String → Simple →
    List (String × List Simple)
  | [], t, s => [(t, [s])]
  | (t2, ss) :: rest, t, s =>
    if t2 = t then
      (t2, if s ∈ ss then ss else ss ++ [s]) :: rest
    else
      (t2, ss) :: addUsedName rest t s

/-- Look up `used_names[t]`. -/
def lookupUsed : List (String × List Simple) → String → Option (List Simple)
  | [], _ => none
  | (t2, ss) :: rest, t => if t2 = t then some ss else lookupUsed rest t

/-- The flush half of `Parser._check_user_stmt` (lines 1303-1310):
record `simple` in `used_names` under every pending name of
`temp_used_names`, then clear the buffer.  The cursor half
(lines 1312-1323) returns immediately because every run in this file
has `user_position = None`. -/
def check_user_stmt (m : ModuleState) (simple : Simple) : ModuleState :=
  { m with
    used_names := m.temp_used_names.foldl (fun un t => addUsedName un t simple)
                    m.used_names
    temp_used_names := [] }

/-- Does a statement's token list contain a `NamePart` with text `t`
(the reference set of the claimed `used_names` invariant)? -/
def hasNamePart (s : Statement) (t : String) : Bool :=
  s.token_list.any fun tk =>
    match tk with
    | .name n => n.names.any (·.text = t)
    | .tok _ _ _ => false

/-! ### The `Call`/`Array` tree of the statement sub-parser
(parsing.py, lines 939-1169)

Python builds this tree with mutable nodes and parent pointers, and
`get_assignment_calls` moves a cursor up and down through those
pointers.  The embedding uses an explicit heap: nodes are numbered,
and a node's `parent`, `next` and `execution` fields hold numbers.
`type(result) == Call` becomes the `isArray` flag (a `Call` node has
`isArray = false`). -/

/-- The value of `self.type` on a `Call` or `Array` node: the `Call`
class constants `NAME`/`NUMBER`/`STRING` (lines 944-946) or the
`Array` class constants (lines 1044-1048; `NOARRAY` is Python
`None`). -/
inductive NType where
  | NAME | NUMBER | STRING | NOARRAY | TUPLE | LIST | DICT | SET
deriving DecidableEq, Repr

/-- The `name` payload of a `Call` node: a parsed `Name`, or the
`literal_eval` result of a NUMBER/STRING token (lines 816-822). -/
inductive CallVal where
  | vname (n : Name)
  | vnum (n : Int)
  | vstr (s : String)
deriving DecidableEq, Repr

/-- An element of an `Array` field: a heap node, or a raw token text
added by `add_to_current_field` (for example `+` or the `:` of a list
slice). -/
inductive HElem where
  | node (id : Nat)
  | rawtok (s : String)
deriving DecidableEq, Repr

/-- One heap node: the union of the `Call` fields (lines 948-958) and
the `Array` fields (lines 1050-1058).  `isArray` distinguishes the
two classes. -/
structure HNode where
  isArray : Bool
  name : Option CallVal
  ntype : NType
  startPos : Pos
  endPos : Option Pos
  parent : Option Nat
  next : Option Nat
  execution : Option Nat
  values : List (List HElem)
  keys : List (List HElem)
  arr_el_pos : List Pos
deriving DecidableEq, Repr

/-- The `Call` constructor (lines 948-958). -/
def mkCall (v : CallVal) (k : NType) (startPos : Pos) (parent : Option Nat) :
    HNode :=
  { isArray := false, name := some v, ntype := k, startPos := startPos
    endPos := none, parent := parent, next := none, execution := none
    values := [], keys := [], arr_el_pos := [] }

/-- The `Array` constructor (lines 1050-1058). -/
def mkArray (startPos : Pos) (t : NType) (parent : Option Nat) : HNode :=
  { isArray := true, name := none, ntype := t, startPos := startPos
    endPos := none, parent := parent, next := none, execution := none
    values := [], keys := [], arr_el_pos := [] }

/-- `Array.add_to_current_field` (lines 1081-1090) at node level:
on an empty `values` list, demote a `TUPLE` to `NOARRAY` ("an empty
round brace is just a tuple, filled it is unnecessary") and create
the first field; then append to the last field. -/
def HNode.add_to_current_field (n : HNode) (el : HElem) : HNode :=
  if n.values = [] then
    let n := if n.ntype = NType.TUPLE then { n with ntype := NType.NOARRAY }
             else n
    { n with values := [[el]] }
  else
    { n with values := n.values.dropLast ++ [(n.values.getLast?.getD []) ++ [el]] }

/-- `Array.add_field` (lines 1071-1079). -/
def HNode.add_field (n : HNode) (pos : Pos) : HNode :=
  { n with arr_el_pos := n.arr_el_pos ++ [pos], values := n.values ++ [[]] }

/-- `Array.add_dictionary_key` (lines 1092-1102): ignored for LIST
and TUPLE arrays; otherwise move the last field from `values` to
`keys` (Python `list.pop()`, an `IndexError` when `values` is empty),
promote SET to DICT, and open a fresh field. -/
def HNode.add_dictionary_key (n : HNode) : Except PErr HNode :=
  if n.ntype = NType.LIST || n.ntype = NType.TUPLE then
    pure n
  else
    match n.values.getLast? with
    | none => throw PErr.indexError
    | some lastField =>
      let n := { n with keys := n.keys ++ [lastField],
                        values := n.values.dropLast }
      let n := if n.ntype = NType.SET then { n with ntype := NType.DICT }
               else n
      pure { n with values := n.values ++ [[]] }

/-- The heap of nodes; a node's number is its index. -/
abbrev Heap := List HNode

/-- Allocate a node, returning its number. -/
def Heap.alloc (h : Heap) (n : HNode) : Heap × Nat :=
  (h ++ [n], h.length)

/-- Read a node; a dangling number is an internal error, reported as
`attributeError` (it never occurs). -/
def Heap.read (h : Heap) (i : Nat) : Except PErr HNode :=
  match h.get? i with
  | some n => pure n
  | none => throw PErr.attributeError

/-- Read through an optional node number; Python attribute access on
`None`. -/
def Heap.readOpt (h : Heap) (oi : Option Nat) : Except PErr HNode :=
  match oi with
  | none => throw PErr.attributeError
  | some i => h.read i

/-- Overwrite node `i`. -/
def Heap.write (h : Heap) (i : Nat) (n : HNode) : Heap :=
  h.set i n

/-- `Call.set_next_chain_call` (lines 982-986): `self.next = call;
call.parent = self.parent`, returning the attached call. -/
def setNextChainCall (h : Heap) (selfId callId : Nat) :
    Except PErr (Heap × Nat) := do
  let sn ← h.read selfId
  let h := h.write selfId { sn with next := some callId }
  let cn ← h.read callId
  let h := h.write callId { cn with parent := sn.parent }
  pure (h, callId)

/-- `Call.add_execution` (lines 988-1000): `self.execution = call`;
then `call.parent` is `self.parent` when `self` is itself that
parent's execution, else `self`.  `self.parent` may be `None`, in
which case Python raises `AttributeError`. -/
def addExecution (h : Heap) (selfId callId : Nat) :
    Except PErr (Heap × Nat) := do
  let sn ← h.read selfId
  let h := h.write selfId { sn with execution := some callId }
  let pn ← h.readOpt sn.parent
  let cn ← h.read callId
  let h :=
    if pn.execution = some selfId then
      h.write callId { cn with parent := sn.parent }
    else
      h.write callId { cn with parent := some selfId }
  pure (h, callId)

/-- The single-quote character, written by code point to keep the
source free of bare quote characters. -/
def squote : Char := Char.ofNat 39

/-- `literal_eval` on a NUMBER token (fragment: decimal integers;
anything else is outside the embedded fragment). -/
def literalEvalNum (s : String) : Except PErr Int :=
  match strToIntDec s with
  | some n => pure n
  | none => throw PErr.unsupported

/-- `literal_eval` on a STRING token (fragment: one layer of plain
quotes). -/
def literalEvalStr (s : String) : Except PErr String :=
  if s.length ≥ 2 && strStartsWith s "\"" && strEndsWith s "\"" then
    pure ((s.drop 1).dropRight 1)
  else if s.length ≥ 2 && strStartsWith s (String.mk [squote])
      && strEndsWith s (String.mk [squote]) then
    pure ((s.drop 1).dropRight 1)
  else throw PErr.unsupported

/-- The loop state of `Statement.get_assignment_calls`
(lines 766-770): the heap, the current `top` array, the `result`
cursor, the bracket `level`, the `is_chain` and `close_brackets`
flags, and the `_assignment_details` accumulator (operator text
paired with the heap node of the recorded `top`). -/
structure ACState where
  heap : Heap
  top : Nat
  result : Option Nat
  level : Int
  is_chain : Bool
  close_brackets : Bool
  details : List (String × Nat)
deriving DecidableEq, Repr

/-- `is_call` (line 810): `type(result) == Call` — false for `None`
and for `Array` nodes. -/
def isCallAt (h : Heap) (res : Option Nat) : Bool :=
  match res with
  | some i =>
    match h.get? i with
    | some n => !n.isArray
    | none => false
  | none => false

/-- `while is_call_or_close(): result = result.parent;
close_brackets = False` (lines 849-851 and the like).  Parent links
always point to earlier-allocated nodes, so `h.length + 1` fuel never
runs out. -/
def ascendWhile : Nat → Heap → Option Nat → Bool → Except PErr (Option Nat)
  | 0, _, _, _ => throw PErr.fuel
  | fuel + 1, h, res, cb =>
    if isCallAt h res || cb then do
      let n ← h.readOpt res
      ascendWhile fuel h n.parent false
    else
      pure res

/-- Turn an optional node number into a node number; `none` is Python
attribute access on `None`. -/
def requireId (oi : Option Nat) : Except PErr Nat :=
  match oi with
  | none => throw PErr.attributeError
  | some i => pure i

/-- Apply a node-level mutation at an optional cursor. -/
def modifyAt (h : Heap) (oi : Option Nat)
    (f : HNode → Except PErr HNode) : Except PErr Heap := do
  let i ← requireId oi
  let n ← h.read i
  let n2 ← f n
  pure (h.write i n2)

/-- The value of the Python loop variables `tok` and `start_pos`
after an iteration of `get_assignment_calls`: either a raw token text
or a `Name`, with its start position.  Used by the final
end-position walk (lines 892-898). -/
abbrev LastAC := Option (Name ⊕ String) × Pos

/-- The "statement creation madness" of `get_assignment_calls`
(lines 808-886): one token of the retained token list, dispatched on
its shape.  `tokv` is `Sum.inl` for a `Name` element and `Sum.inr`
for a raw `(token_type, text)` pair. -/
def acMadness (st : ACState) (tokv : Name ⊕ (TokType × String)) (sp : Pos) :
    Except PErr ACState := do
  let h := st.heap
  let isLiteral :=
    match tokv with
    | Sum.inr (typ, _) => typ = TokType.STRING || typ = TokType.NUMBER
    | Sum.inl _ => false
  let isNameTok := match tokv with | Sum.inl _ => true | Sum.inr _ => false
  if isNameTok || isLiteral then do
    -- lines 814-838: build a Call for a name or a literal
    let (v, cty) ←
      match tokv with
      | Sum.inl nm => pure (CallVal.vname nm, NType.NAME)
      | Sum.inr (typ, text) =>
        if typ = TokType.STRING then do
          let s ← literalEvalStr text
          pure (CallVal.vstr s, NType.STRING)
        else do
          let n ← literalEvalNum text
          pure (CallVal.vnum n, NType.NUMBER)
    if st.is_chain then do
      -- `call = Call(tok, c_type, start_pos, parent=result)` then
      -- `result = result.set_next_chain_call(call)`
      let (h, cid) := h.alloc (mkCall v cty sp st.result)
      let rid ← requireId st.result
      let (h, nid) ← setNextChainCall h rid cid
      pure { st with heap := h, result := some nid,
                     is_chain := false, close_brackets := false }
    else do
      let (res, h) ← do
        if st.close_brackets then do
          let n ← h.readOpt st.result
          pure (n.parent, h)
        else
          pure (st.result, h)
      let res ← do
        if isCallAt h res then do
          let n ← h.readOpt res
          pure n.parent
        else
          pure res
      let (h, cid) := h.alloc (mkCall v cty sp res)
      let h ← modifyAt h res (fun n => pure (n.add_to_current_field (.node cid)))
      pure { st with heap := h, result := some cid, close_brackets := false }
  else
    match tokv with
    | Sum.inl _ => throw PErr.unsupported
    | Sum.inr (_, text) =>
      if text = "(" || text = "[" || text = "\x7b" then do
        -- lines 839-847: bracket open
        let bty :=
          if text = "(" then NType.TUPLE
          else if text = "[" then NType.LIST
          else NType.SET
        let level := st.level + 1
        if isCallAt h st.result || st.close_brackets then do
          let (h, aid) := h.alloc (mkArray sp bty st.result)
          let rid ← requireId st.result
          let (h, nid) ← addExecution h rid aid
          pure { st with heap := h, result := some nid, level := level,
                         close_brackets := false }
        else do
          let (h, aid) := h.alloc (mkArray sp bty st.result)
          let h ← modifyAt h st.result
                    (fun n => pure (n.add_to_current_field (.node aid)))
          pure { st with heap := h, result := some aid, level := level }
      else if text = ":" then do
        -- lines 848-855
        let res ← ascendWhile (h.length + 1) h st.result st.close_brackets
        let n ← h.readOpt res
        if n.ntype = NType.LIST then do
          let h ← modifyAt h res
                    (fun n => pure (n.add_to_current_field (.rawtok ":")))
          pure { st with heap := h, result := res, close_brackets := false }
        else do
          let h ← modifyAt h res (fun n => n.add_dictionary_key)
          pure { st with heap := h, result := res, close_brackets := false }
      else if text = "." then do
        -- lines 856-861
        if st.close_brackets then do
          let n ← h.readOpt st.result
          if n.parent ≠ some st.top then
            pure { st with result := n.parent, close_brackets := false,
                           is_chain := true }
          else
            pure { st with is_chain := true }
        else
          pure { st with is_chain := true }
      else if text = "," then do
        -- lines 862-869
        let res ← ascendWhile (h.length + 1) h st.result st.close_brackets
        let h ← modifyAt h res
                  (fun n => pure (n.add_field (sp.1, sp.2 + 1)))
        let n ← h.readOpt res
        let h :=
          if n.ntype = NType.NOARRAY then
            h.write ((res).getD 0) { n with ntype := NType.TUPLE }
          else h
        pure { st with heap := h, result := res, close_brackets := false }
      else if text = ")" || text = "\x7d" || text = "]" then do
        -- lines 870-880: bracket close
        let res ← ascendWhile (h.length + 1) h st.result st.close_brackets
        let n ← h.readOpt res
        let h :=
          if text = "\x7d" && n.values.length = 0 then
            h.write (res.getD 0) { n with ntype := NType.DICT }
          else h
        let level := st.level - 1
        let h ← modifyAt h res
                  (fun n => pure { n with endPos := some (sp.1, sp.2 + 1) })
        pure { st with heap := h, result := res, level := level,
                       close_brackets := true }
      else do
        -- lines 881-886: any other token
        let res ← ascendWhile (h.length + 1) h st.result st.close_brackets
        if text ≠ "\n" then do
          let h ← modifyAt h res
                    (fun n => pure (n.add_to_current_field (.rawtok text)))
          pure { st with heap := h, result := res, close_brackets := false }
        else
          pure { st with result := res, close_brackets := false }

/-- The token loop of `get_assignment_calls` (lines 772-886): unpack
each element of the token list; a raw triple at `level == 0` whose
text ends in `=` (and is not a comparison) records an assignment
detail and restarts `top` (lines 789-803); a raw `as` skips the next
element (lines 804-806); everything else goes through `acMadness`.
The running `(tok, start_pos)` pair is carried for the final
end-position walk. -/
def computeLoop : List StmtTok → ACState → LastAC →
    Except PErr (ACState × LastAC)
  | [], st, last => pure (st, last)
  | t :: rest, st, _last =>
    match t with
    | .name nm => do
      -- TypeError branch of lines 780-784: the token is a Name
      let sp := nm.startPos
      let st ← acMadness st (Sum.inl nm) sp
      computeLoop rest st (some (Sum.inl nm), sp)
    | .tok typ text sp =>
      if st.level = 0 && strEndsWith text "="
          && text ≠ ">=" && text ≠ "<=" && text ≠ "==" && text ≠ "!=" then
        -- lines 789-803: an assignment; record and restart `top`
        let endPos := (sp.1, sp.2 + text.length)
        let (h, newTop) := st.heap.alloc (mkArray endPos NType.NOARRAY none)
        let st := { st with heap := h, top := newTop, result := some newTop,
                            level := 0, close_brackets := false,
                            is_chain := false,
                            details := st.details ++ [(text, st.top)] }
        computeLoop rest st (some (Sum.inr text), sp)
      else if text = "as" then
        -- lines 804-806: `next(tok_iter, None)` skips one element
        match rest with
        | [] => pure (st, (some (Sum.inr text), sp))
        | _ :: rest2 => computeLoop rest2 st (some (Sum.inr text), sp)
      else do
        let st ← acMadness st (Sum.inr (typ, text)) sp
        computeLoop rest st (some (Sum.inr text), sp)

/-- The `(line, column)` just past the final loop token, as computed
by `result.end_pos = start_pos[0], start_pos[1] + len(tok)`
(line 895); `len` of a `Name` is its number of parts
(`Name.__len__`, lines 1222-1223). -/
def endFromLast : LastAC → Except PErr Pos
  | (some (Sum.inl nm), sp) => pure (sp.1, sp.2 + nm.names.length)
  | (some (Sum.inr s), sp) => pure (sp.1, sp.2 + s.length)
  | (none, _) => throw PErr.unsupported

/-- The final walk of lines 893-898: from the cursor up through the
parent chain, writing the end position on every node. -/
def walkSetEnd : Nat → Heap → Option Nat → Pos → Except PErr Heap
  | 0, _, _, _ => throw PErr.fuel
  | _ + 1, h, none, _ => pure h
  | fuel + 1, h, some i, e => do
    let n ← h.read i
    let h := h.write i { n with endPos := some e }
    walkSetEnd fuel h n.parent e

/-- The value computed by one run of `get_assignment_calls`: the
final heap, the node number stored in `_assignment_calls`, and the
`_assignment_details` pairs. -/
structure ACResult where
  heap : Heap
  top : Nat
  details : List (String × Nat)
deriving DecidableEq, Repr

/-- The body of `Statement.get_assignment_calls` (lines 766-904)
run on a statement's immutable data: allocate the initial `NOARRAY`
top array at the statement's start position, run the token loop,
then write end positions (on the whole parent chain of the cursor
when the token list is non-empty, on `top` from the statement's end
position otherwise). -/
def computeAssignmentCalls (stmt : Statement) : Except PErr ACResult := do
  let (h, topId) := Heap.alloc []
      (mkArray stmt.startPos NType.NOARRAY none)
  let st0 : ACState :=
    { heap := h, top := topId, result := some topId, level := 0,
      is_chain := false, close_brackets := false, details := [] }
  let (st, last) ← computeLoop stmt.token_list st0 (none, (0, 0))
  if stmt.token_list ≠ [] then do
    let e ← endFromLast last
    let h ← walkSetEnd (st.heap.length + 1) st.heap st.result e
    pure { heap := h, top := st.top, details := st.details }
  else do
    let h ← modifyAt st.heap st.result
              (fun n => pure { n with endPos := some stmt.endPos })
    pure { heap := h, top := st.top, details := st.details }

/-- The mutable lazy-computation state of a `Statement`
(lines 695-699): the `_assignment_calls` / `_assignment_details`
caches and the `_assignment_calls_calculated` flag. -/
structure StmtState where
  base : Statement
  assignment_calls_calculated : Bool
  assignment_calls : Option ACResult
  assignment_details : Option (List (String × Nat))
deriving DecidableEq, Repr

/-- A freshly constructed statement: caches empty, flag down
(lines 695-699). -/
def initStmtState (stmt : Statement) : StmtState :=
  { base := stmt, assignment_calls_calculated := false,
    assignment_calls := none, assignment_details := none }

/-- `Statement.get_assignment_calls` (lines 755-904): return the
cache when `_assignment_calls_calculated` is set (lines 764-765),
else compute, fill both caches, raise the flag and return the new
tree (lines 902-904). -/
def Statement.get_assignment_calls (s : StmtState) :
    Except PErr (Option ACResult × StmtState) :=
  if s.assignment_calls_calculated then
    pure (s.assignment_calls, s)
  else do
    let r ← computeAssignmentCalls s.base
    pure (some r,
      { s with assignment_calls_calculated := true,
               assignment_calls := some r,
               assignment_details := some r.details })

/-- A position-free read-back of a heap node as a pure tree, for
stating expected `Call`/`Array` shapes.  `vnames` is the `name`
payload with `Name`s reduced to their part texts. -/
inductive CView where
  | call (v : Option CallVal) (k : NType) (next : Option CView)
         (exec : Option CView)
  | arr (t : NType) (keys : List (List CView)) (values : List (List CView))
  | rawtok (s : String)

/-- Read node `i` of `h` as a `CView`, to depth `fuel`. -/
def readView : Nat → Heap → Nat → Option CView
  | 0, _, _ => none
  | fuel + 1, h, i =>
    match h.get? i with
    | none => none
    | some n =>
      let readElem : HElem → Option CView := fun el =>
        match el with
        | .node j => readView fuel h j
        | .rawtok s => some (.rawtok s)
      let readField : List HElem → Option (List CView) := fun f =>
        f.mapM readElem
      if n.isArray then
        match n.keys.mapM readField, n.values.mapM readField with
        | some ks, some vs => some (.arr n.ntype ks vs)
        | _, _ => none
      else
        let nx : Option (Option CView) :=
          match n.next with
          | none => some none
          | some j => (readView fuel h j).map some
        let ex : Option (Option CView) :=
          match n.execution with
          | none => some none
          | some j => (readView fuel h j).map some
        match nx, ex with
        | some nxv, some exv => some (.call n.name n.ntype nxv exv)
        | _, _ => none

/-! ### The token source and the parser driver
(parsing.py, lines 1243-1959)

The tokenizer itself (`common.NoErrorTokenizer` wrapping Python's
`tokenize`) is not part of `parsing.py`. -/

/-- Modelled from the spec: the Token Source contract (§4.2) — a
quintuple `(kind, text, start, end, raw_line)` per token; the raw
line is never consulted by the embedded fragment and is dropped. -/
structure Token where
  typ : TokType
  text : String
  startPos : Pos
  endPos : Pos
deriving DecidableEq, Repr

/-- The mutable driver state of `Parser` (lines 1258-1281 and
1748-1750): the remaining token stream with its single push-back
slot, the `current`/`last_token` pairs, the running
`start_pos`/`end_pos`, the module under construction, `freshscope`,
`no_docstr` and the pending-decorators buffer.  Cursor state
(`user_position` etc.) is absent: every run in this file parses with
`user_position = None`. -/
structure PState where
  toks : List Token
  pushed : Option Token
  last : Option Token
  current : Option (TokType × String)
  last_token : Option (TokType × String)
  startPos : Pos
  endPos : Pos
  module : ModuleState
  freshscope : Bool
  no_docstr : Bool
  decorators : List (Option Statement)
deriving DecidableEq, Repr

/-- `Parser.__next__` (lines 1711-1732) on top of the token source:
serve the pushed-back token if any, else the next stream token;
record it as `last`, shift `current` into `last_token`, and update
the running positions.  An empty stream raises `StopIteration`
(the scope end-position fixup it performs is re-done by
`parserInit`). -/
def pnext (s : PState) : Except PErr ((TokType × String) × PState) :=
  let serve : Token → List Token → Option Token →
      ((TokType × String) × PState) := fun t rest pushed =>
    ((t.typ, t.text),
     { s with toks := rest, pushed := pushed, last := some t,
              last_token := s.current, current := some (t.typ, t.text),
              startPos := t.startPos, endPos := t.endPos })
  match s.pushed with
  | some t => pure (serve t s.toks none)
  | none =>
    match s.toks with
    | [] => throw PErr.stopIteration
    | t :: rest => pure (serve t rest none)

/-- Modelled from the spec: the Token Source single-item push-back
(§4.2, `self._gen.push_last_back()`): the last served token is served
again by the following `next`. -/
def push_last_back (s : PState) : PState :=
  { s with pushed := s.last }

/-- `self.current` at the call sites that pass it on — always a
just-consumed token there. -/
def currentPre (s : PState) : TokType × String :=
  s.current.getD (TokType.OP, "")

/-- Append a pending name text to `module.temp_used_names`
(the `append` closure of `_parse_dot_name`, lines 1333-1335). -/
def tempAppendName (s : PState) (t : String) : PState :=
  { s with module :=
      { s.module with temp_used_names := s.module.temp_used_names ++ [t] } }

/-- The `while True` of `_parse_dot_name` (lines 1351-1358): after
each `.` expect a NAME and append it (with its start position) to
both the part list and `temp_used_names`. -/
def dotNameLoop : Nat → PState → List (String × Pos) →
    Except PErr (List (String × Pos) × TokType × String × PState)
  | 0, _, _ => throw PErr.fuel
  | fuel + 1, s, names => do
    let ((ty, tk), s) ← pnext s
    if tk ≠ "." then pure (names, ty, tk, s)
    else do
      let ((ty2, tk2), s) ← pnext s
      if ty2 ≠ TokType.NAME then pure (names, ty2, tk2, s)
      else
        let s := tempAppendName s tk2
        dotNameLoop fuel s (names ++ [(tk2, s.startPos)])

/-- `Parser._parse_dot_name` (lines 1325-1362).  Both falsy early
returns (the empty list of line 1341 and the `None` of line 1347)
become `none`; a successful parse always has at least one part, so
the `Name` is always built. -/
def parse_dot_name (fuel : Nat) (s : PState)
    (preUsed : Option (TokType × String)) :
    Except PErr (Option Name × TokType × String × PState) := do
  let ((ty, tk), s) ←
    match preUsed with
    | none => pnext s
    | some p => pure (p, s)
  if ty ≠ TokType.NAME && tk ≠ "*" then
    pure (none, ty, tk, s)
  else do
    let s := tempAppendName s tk
    let first := [(tk, s.startPos)]
    let firstPos := s.startPos
    let (names, ty2, tk2, s) ← dotNameLoop fuel s first
    let n : Name :=
      { names := names.map (fun p => { text := p.1, startPos := p.2 })
        startPos := firstPos
        endPos := s.endPos }
    pure (some n, ty2, tk2, s)

/-- `continue_kw` of `_parse_import_list` (lines 1382-1383):
`[",", ";", "\n", ")"]` plus `keyword.kwlist` without `as`
(the Python 3 keyword list). -/
def continue_kw : List String :=
  [",", ";", "\n", ")"] ++
  ["False", "None", "True", "and", "assert", "break", "class",
   "continue", "def", "del", "elif", "else", "except", "finally",
   "for", "from", "global", "if", "import", "in", "is", "lambda",
   "nonlocal", "not", "or", "pass", "raise", "return", "try",
   "while", "with", "yield"]

/-- `while tok not in continue_kw: token_type, tok = self.next()`
(lines 1401-1402). -/
def skipToContinue : Nat → PState → String →
    Except PErr (String × PState)
  | 0, _, _ => throw PErr.fuel
  | fuel + 1, s, tk =>
    if tk ∈ continue_kw then pure (tk, s)
    else do
      let ((_, tk2), s) ← pnext s
      skipToContinue fuel s tk2

/-- `Parser._parse_import_list` (lines 1364-1405): triples of
`(dotted_name?, alias?, defunct)` across commas, tolerating one pair
of enclosing parentheses. -/
def parse_import_list : Nat → PState → Bool →
    List (Option Name × Option Name × Bool) →
    Except PErr (List (Option Name × Option Name × Bool) × PState)
  | 0, _, _, _ => throw PErr.fuel
  | fuel + 1, s, brackets, imports => do
    let ((ty, tk), s) ← pnext s
    if ty = TokType.ENDMARKER then pure (imports, s)
    else do
      let s ←
        if brackets && tk = "\n" then do
          let (_, s) ← pnext s
          pure s
        else pure s
      let (brackets, s) ←
        if tk = "(" then do
          let (_, s) ← pnext s
          pure (true, s)
        else pure (brackets, s)
      let (i, _, tk2, s) ← parse_dot_name fuel s (some (currentPre s))
      let defunct := i.isNone
      let (name2, tk3, s) ←
        if tk2 = "as" then do
          let (n2, _, tk3, s) ← parse_dot_name fuel s none
          pure (n2, tk3, s)
        else pure ((none : Option Name), tk2, s)
      let imports := imports ++ [(i, name2, defunct)]
      let (tk4, s) ← skipToContinue fuel s tk3
      if tk4 = "," || (brackets && tk4 = "\n") then
        parse_import_list fuel s brackets imports
      else
        pure (imports, s)

/-- `always_break` (lines 1554-1555). -/
def alwaysBreak : List String :=
  [";", "import", "from", "class", "def", "try", "except", "finally",
   "while", "return", "yield"]

/-- `not_first_break` (line 1556). -/
def notFirstBreak : List String := ["del", "raise"]

/-- The character class of `re.match(r'[\w\d\x27\x22]', ...)` used
for spacing in `_parse_statement` (line 1668): word characters and
quotes. -/
def isWordQuoteChar (c : Char) : Bool :=
  c.isAlphanum || c = '_' || c = squote || c = '"'

/-- The comment-skipping loop of `_parse_statement`
(lines 1540-1543). -/
def skipComments : Nat → PState → TokType → String →
    Except PErr ((TokType × String) × PState)
  | 0, _, _, _ => throw PErr.fuel
  | fuel + 1, s, ty, tk =>
    if ty = TokType.COMMENT then do
      let (_, s) ← pnext s
      let ((ty2, tk2), s) ← pnext s
      skipComments fuel s ty2 tk2
    else pure ((ty, tk), s)

/-- The running accumulators of the `_parse_statement` token loop
(lines 1529-1560). -/
structure StLoopAcc where
  string : String
  set_vars : List Name
  used_funcs : List Name
  used_vars : List Name
  level : Int
  tok_list : List StmtTok
deriving DecidableEq, Repr

/-- The token loop of `_parse_statement` (lines 1561-1686).  The
`lambda` and list-comprehension sub-parsers (lines 1578-1656) are
outside the embedded fragment and are the `unsupported` error.
A `StopIteration` raised by an inner `next` is the `except` of
lines 1684-1686: the loop breaks with the accumulators and the
loop variables as they stand. -/
def stLoop : Nat → PState → TokType → String → List String → StLoopAcc →
    Except PErr (StLoopAcc × TokType × String × PState)
  | 0, _, _, _, _, _ => throw PErr.fuel
  | fuel + 1, s, ty, tk, breaks, acc =>
    if tk ∈ alwaysBreak || (tk ∈ notFirstBreak && acc.tok_list = []) ||
        (tk ∈ breaks && acc.level ≤ 0) then
      pure (acc, ty, tk, s)
    else
      -- `set_string` (line 1565) is never reassigned in the source, so
      -- the final `string = set_string if ... else string + tok` is
      -- always the concatenation
      let acc := { acc with tok_list := acc.tok_list ++ [StmtTok.tok ty tk s.startPos] }
      if tk = "as" then
        -- lines 1568-1577
        let acc := { acc with string := acc.string ++ " " ++ tk ++ " " }
        match pnext s with
        | .error PErr.stopIteration => pure (acc, ty, tk, s)
        | .error e => throw e
        | .ok ((ty2, tk2), s) =>
          if ty2 = TokType.NAME then
            match parse_dot_name fuel s (some (currentPre s)) with
            | .error PErr.stopIteration => pure (acc, ty2, tk2, s)
            | .error e => throw e
            | .ok (n, ty3, tk3, s) =>
              match n with
              | some nm =>
                let acc := { acc with
                  set_vars := acc.set_vars ++ [nm]
                  tok_list := acc.tok_list ++ [StmtTok.name nm]
                  string := acc.string ++ nm.get_code }
                stLoop fuel s ty3 tk3 breaks acc
              | none =>
                -- `".".join(n.names)` on `None`; unreachable, since the
                -- pre-used token has type NAME
                throw PErr.attributeError
          else
            stLoop fuel s ty2 tk2 breaks acc
      else if tk = "lambda" then
        throw PErr.unsupported
      else if ty = TokType.NAME then
        if tk = "for" then
          throw PErr.unsupported
        else
          -- lines 1657-1671
          match parse_dot_name fuel s (some (currentPre s)) with
          | .error PErr.stopIteration => pure (acc, ty, tk, s)
          | .error e => throw e
          | .ok (n, ty2, tk2, s) =>
            let acc := { acc with tok_list := acc.tok_list.dropLast }
            match n with
            | some nm =>
              let acc := { acc with tok_list := acc.tok_list ++ [StmtTok.name nm] }
              let acc :=
                if tk2 = "(" then
                  { acc with used_funcs := acc.used_funcs ++ [nm] }
                else
                  { acc with used_vars := acc.used_vars ++ [nm] }
              let spacer :=
                if acc.string ≠ "" && isWordQuoteChar acc.string.back then " "
                else ""
              let acc := { acc with string := acc.string ++ spacer ++ nm.get_code }
              stLoop fuel s ty2 tk2 breaks acc
            | none => stLoop fuel s ty2 tk2 breaks acc
      else
        -- lines 1672-1683
        let acc :=
          if strEndsWith tk "=" && tk ≠ ">=" && tk ≠ "<=" && tk ≠ "==" &&
              tk ≠ "!=" then
            if acc.level = 0 then
              { acc with set_vars := acc.set_vars ++ acc.used_vars,
                         used_vars := [] }
            else acc
          else if tk = "\x7b" || tk = "(" || tk = "[" then
            { acc with level := acc.level + 1 }
          else if tk = "\x7d" || tk = ")" || tk = "]" then
            { acc with level := acc.level - 1 }
          else acc
        let acc := { acc with string := acc.string ++ tk }
        match pnext s with
        | .error PErr.stopIteration => pure (acc, ty, tk, s)
        | .error e => throw e
        | .ok ((ty2, tk2), s) => stLoop fuel s ty2 tk2 breaks acc

/-- `Parser._parse_statement` (lines 1513-1703), `stmt_class =
Statement` (the only class the embedded fragment needs): run the
token loop, then either discard (empty string), consume as a
docstring (fresh scope, single STRING token; the `cleandoc`
whitespace normalization of `add_docstr` is omitted — no run in this
file reaches it), or build the `Statement`, register it with
`_check_user_stmt`, and push the break token back when it must be
re-served. -/
def parse_statement (fuel : Nat) (s : PState)
    (preUsed : Option (TokType × String)) (addedBreaks : List String) :
    Except PErr (Option Statement × String × PState) := do
  let ((ty, tk), s) ←
    match preUsed with
    | some p => pure (p, s)
    | none => pnext s
  let ((ty, tk), s) ← skipComments fuel s ty tk
  let firstPos := s.startPos
  let breaks := ["\n", ":", ")"] ++ addedBreaks
  let (acc, _, tkEnd, s) ← stLoop fuel s ty tk breaks
      { string := "", set_vars := [], used_funcs := [], used_vars := []
        level := 0, tok_list := [] }
  if acc.string = "" then
    pure (none, tkEnd, s)
  else if s.freshscope && !s.no_docstr && acc.tok_list.length = 1 &&
      (match s.last_token with
       | some (TokType.STRING, _) => true
       | _ => false) then do
    let txt := match s.last_token with | some (_, t) => t | none => ""
    let d ← literalEvalStr txt
    let s := { s with module := { s.module with docstr := d } }
    pure (none, tkEnd, s)
  else do
    let stmt := mkStatement acc.string acc.set_vars acc.used_funcs
        acc.used_vars acc.tok_list firstPos s.endPos
    let s := { s with module := check_user_stmt s.module (.stmt stmt) }
    let s := if tkEnd ∈ alwaysBreak ++ notFirstBreak then push_last_back s
             else s
    pure (some stmt, tkEnd, s)

/-- The `Import` built by the plain-`import` branch of `_parse`
(lines 1801-1803 and 1806-1808):
`Import(self.module, first_pos, self.end_pos, m, alias,
defunct=defunct)` — `from_ns` absent, `star` false,
`relative_count` 0 by the constructor defaults (lines 596-597). -/
def emitImport (startPos endPos : Pos) (namespc al : Option Name)
    (defunct : Bool) : Import :=
  { namespc := namespc, «alias» := al, from_ns := none, star := false,
    relative_count := 0, defunct := defunct,
    startPos := startPos, endPos := endPos }

/-- The `Import` built for one triple by the `from` branch of
`_parse` (lines 1832-1838): a leading `*` part sets `star` and clears
the namespace, and the shared `mod`/`relative_count`/`defunct` are
attached. -/
def emitFromImport (startPos endPos : Pos) (mod : Option Name)
    (relative_count : Nat) (defunct : Bool)
    (trip : Option Name × Option Name × Bool) : Import :=
  let (name, al, defunct2) := trip
  let star :=
    match name with
    | some n => ((n.names.head?.map (·.text)).getD "") = "*"
    | none => false
  let name := if star then none else name
  { namespc := name, «alias» := al, from_ns := mod, star := star,
    relative_count := relative_count, defunct := defunct || defunct2,
    startPos := startPos, endPos := endPos }

/-- The leading-dots loop of the `from` branch (lines 1815-1819). -/
def dotsLoop : Nat → PState → Nat →
    Except PErr (Nat × (TokType × String) × PState)
  | 0, _, _ => throw PErr.fuel
  | fuel + 1, s, rc => do
    let ((ty, tk), s) ← pnext s
    if tk ≠ "." then pure (rc, (ty, tk), s)
    else dotsLoop fuel s (rc + 1)

/-- Register one emitted import: `self._check_user_stmt(i)` then
`self.scope.add_import(i)` (lines 1804-1805, 1839-1840). -/
def registerImport (s : PState) (i : Import) : PState :=
  let m := check_user_stmt s.module (.imp i)
  { s with module := { m with imports := m.imports ++ [i] } }

/-- One dispatch step of `Parser._parse` (lines 1781-1959) for the
embedded fragment: the `import`, `from`, `global`, `@`, `pass`,
`assert` and default-statement branches, plus the silent branch for
NEWLINE/NL/INDENT/COMMENT/ENDMARKER.  The scope-building branches
(`def`, `class`, `for`, flow keywords, `return`/`yield`) are outside
the fragment and are the `unsupported` error. -/
def dispatch (fuel : Nat) (ty : TokType) (tk : String) (s : PState) :
    Except PErr PState := do
  let firstPos := s.startPos
  if tk = "def" || tk = "class" || tk = "for" || tk = "if" ||
      tk = "while" || tk = "try" || tk = "with" || tk = "else" ||
      tk = "elif" || tk = "except" || tk = "finally" ||
      tk = "return" || tk = "yield" then
    throw PErr.unsupported
  else if tk = "import" then do
    -- lines 1799-1810
    let (imports, s) ← parse_import_list fuel s false []
    let s := imports.foldl
      (fun s trip =>
        registerImport s (emitImport firstPos s.endPos trip.1 trip.2.1
                            trip.2.2))
      s
    let s ←
      if imports = [] then do
        let i := emitImport firstPos s.endPos none none true
        -- registered with `_check_user_stmt` but never added to the scope
        pure { s with module := check_user_stmt s.module (.imp i) }
      else pure s
    pure { s with freshscope := false }
  else if tk = "from" then do
    -- lines 1811-1841
    let (relative_count, _, s) ← dotsLoop fuel s 0
    let (mod, _, tk2, s) ← parse_dot_name fuel s (some (currentPre s))
    let (mod, tk2, s) :=
      if (match mod with
          | some m => m.get_code = "import"
          | none => false) && relative_count ≠ 0 then
        (none, "import", push_last_back s)
      else (mod, tk2, s)
    let s :=
      if (mod.isNone && relative_count = 0) || tk2 ≠ "import" then
        -- `defunct = True`; push back unless the break was `import`
        if tk2 ≠ "import" then push_last_back s else s
      else s
    let defunct := (mod.isNone && relative_count = 0) || tk2 ≠ "import"
    let (names, s) ← parse_import_list fuel s false []
    let s := names.foldl
      (fun s trip =>
        registerImport s (emitFromImport firstPos s.endPos mod
                            relative_count defunct trip))
      s
    pure { s with freshscope := false }
  else if tk = "global" then do
    -- lines 1925-1932
    let (stmt, _, s) ← parse_statement fuel s (some (currentPre s)) []
    match stmt with
    | some st =>
      let m := { s.module with statements := s.module.statements ++ [st] }
      let m := { m with global_vars := m.global_vars ++ st.used_vars }
      pure { s with module := m }
    | none => pure s
  else if tk = "@" then do
    -- lines 1934-1936
    let (stmt, _, s) ← parse_statement fuel s none []
    pure { s with decorators := s.decorators ++ [stmt] }
  else if tk = "pass" then
    pure s
  else if tk = "assert" then do
    -- lines 1939-1942: `stmt.parent = use_as_parent_scope` is executed
    -- unconditionally, so a `None` statement is an AttributeError
    let (stmt, _, s) ← parse_statement fuel s none []
    match stmt with
    | none => throw PErr.attributeError
    | some st =>
      pure { s with module :=
        { s.module with asserts := s.module.asserts ++ [st] } }
  else if ty = TokType.NAME || ty = TokType.STRING || ty = TokType.NUMBER ||
      tk = "\x7b" || tk = "[" || tk = "(" || tk = "`" then do
    -- lines 1944-1953: the default statement branch
    let (stmt, _, s) ← parse_statement fuel s (some (currentPre s)) []
    let s :=
      match stmt with
      | some st =>
        { s with module :=
            { s.module with statements := s.module.statements ++ [st] } }
      | none => s
    pure { s with freshscope := false }
  else
    -- lines 1954-1959: unclassified tokens only log a warning
    pure s

/-- The main loop of `Parser._parse` (lines 1750-1959): serve a
token, clear `temp_used_names` (line 1753), dispatch.  The DEDENT and
unindent scope-closing loops (lines 1757-1776) only act when
`self.scope != self.module`; the embedded fragment parses at module
level throughout, so they are identities.  `StopIteration` at the
loop head ends the `for` normally. -/
def parseLoop : Nat → PState → Except PErr PState
  | 0, _ => throw PErr.fuel
  | fuel + 1, s =>
    match pnext s with
    | .error PErr.stopIteration => pure s
    | .error e => throw e
    | .ok ((ty, tk), s) => do
      let s := { s with module := { s.module with temp_used_names := [] } }
      let s ← dispatch fuel ty tk s
      parseLoop fuel s

/-- `Parser.__init__` (lines 1258-1298) on an already-tokenized
source: build the module (start position `(line_offset + 1, 0)` with
`line_offset = 0`), run `_parse` — `MultiLevelStopIteration` and
`StopIteration` are caught at this boundary (lines 1282-1288) —
re-parent leftover decorators (a no-op here), and set the module's
end position.  Any other exception escapes to the caller, as in
Python. -/
def parserInit (toks : List Token) (path : Option String) :
    Except PErr ModuleState :=
  let fuel := 4 * toks.length + 64
  let s0 : PState :=
    { toks := toks, pushed := none, last := none, current := none,
      last_token := none, startPos := (1, 0), endPos := (1, 0),
      module := initModule path (1, 0), freshscope := true,
      no_docstr := false, decorators := [] }
  match parseLoop fuel s0 with
  | .ok s => pure { s.module with endPos := s.endPos }
  | .error PErr.stopIteration =>
    -- a `StopIteration` raised inside a dispatch body is also caught
    -- at this boundary; the `Except` model cannot keep the partial
    -- state on that path, and no run in this file takes it
    throw PErr.unsupported
  | .error e => throw e

/-! ### Concrete token streams

Modelled from the spec: the Token Source contract (§4.2, §6) — the
parser appends a trailing newline to its input (line 1277) and
consumes the standard Python token stream of the result.  Each list
below is that stream for one literal source. -/

/-- Modelled from the spec: the token stream of the source `x = 1`
(after the appended newline). -/
def toksX1 : List Token :=
  [⟨TokType.NAME, "x", (1, 0), (1, 1)⟩,
   ⟨TokType.OP, "=", (1, 2), (1, 3)⟩,
   ⟨TokType.NUMBER, "1", (1, 4), (1, 5)⟩,
   ⟨TokType.NEWLINE, "\n", (1, 5), (1, 6)⟩,
   ⟨TokType.ENDMARKER, "", (2, 0), (2, 0)⟩]

/-- Modelled from the spec: the token stream of the source
`from .. import x, y as z` (after the appended newline). -/
def toksFrom : List Token :=
  [⟨TokType.NAME, "from", (1, 0), (1, 4)⟩,
   ⟨TokType.OP, ".", (1, 5), (1, 6)⟩,
   ⟨TokType.OP, ".", (1, 6), (1, 7)⟩,
   ⟨TokType.NAME, "import", (1, 8), (1, 14)⟩,
   ⟨TokType.NAME, "x", (1, 15), (1, 16)⟩,
   ⟨TokType.OP, ",", (1, 16), (1, 17)⟩,
   ⟨TokType.NAME, "y", (1, 18), (1, 19)⟩,
   ⟨TokType.NAME, "as", (1, 20), (1, 22)⟩,
   ⟨TokType.NAME, "z", (1, 23), (1, 24)⟩,
   ⟨TokType.NEWLINE, "\n", (1, 24), (1, 25)⟩,
   ⟨TokType.ENDMARKER, "", (2, 0), (2, 0)⟩]

/-- Modelled from the spec: the token stream of the source
`import x` (after the appended newline). -/
def toksImportX : List Token :=
  [⟨TokType.NAME, "import", (1, 0), (1, 6)⟩,
   ⟨TokType.NAME, "x", (1, 7), (1, 8)⟩,
   ⟨TokType.NEWLINE, "\n", (1, 8), (1, 9)⟩,
   ⟨TokType.ENDMARKER, "", (2, 0), (2, 0)⟩]

/-- Modelled from the spec: the token stream of the source `assert`
(after the appended newline). -/
def toksAssert : List Token :=
  [⟨TokType.NAME, "assert", (1, 0), (1, 6)⟩,
   ⟨TokType.NEWLINE, "\n", (1, 6), (1, 7)⟩,
   ⟨TokType.ENDMARKER, "", (2, 0), (2, 0)⟩]

/-! ### `check_error_statements` (jedi/api/helpers.py, lines 62-106)

The helper walks `module.error_statement_stacks`; the error-statement
and tree-node classes it reads are not under `src/`, so their data
shape is modelled from the spec (§4.6: partially-parsed import
constructs recorded as stacks of `(type, nodes)` entries). -/

/-- Modelled from the spec: a `pt.Name` leaf of an error-statement
stack — a value with a start position. -/
structure PTName where
  value : String
  startPos : Pos
deriving DecidableEq, Repr

/-- Modelled from the spec: a node of an error-statement stack —
a `pt.Name`, a typed `pt.Node` with children, or an operator/keyword
leaf (the only kind that compares equal to a plain string, as
`node == '.'` does in the source). -/
inductive ENode where
  | name (n : PTName)
  | node (typ : String) (startPos endP : Pos) (children : List ENode)
  | op (value : String) (startPos : Pos)

/-- The start position of a stack node. -/
def ENode.startPos : ENode → Pos
  | .name n => n.startPos
  | .node _ p _ _ => p
  | .op _ p => p

/-- The end position of a stack node: a leaf ends at its start plus
the value's length (the `pt` leaf convention); a `pt.Node` carries
its span. -/
def ENode.endPos : ENode → Pos
  | .name n => (n.startPos.1, n.startPos.2 + n.value.length)
  | .node _ _ e _ => e
  | .op v p => (p.1, p.2 + v.length)

/-- `node == s` for a string `s`: true only for operator/keyword
leaves with that value. -/
def ENode.beqStr : ENode → String → Bool
  | .op v _, t => v = t
  | _, _ => false

/-- Modelled from the spec: one entry of
`module.error_statement_stacks` as `check_error_statements` reads it:
`first_type`, `first_pos`, `next_start_pos` and the `stack` of
`(type, nodes)` pairs. -/
structure ErrorStatement where
  first_type : String
  first_pos : Pos
  next_start_pos : Pos
  stack : List (String × List ENode)

/-- `children[::2]` (helpers.py, line 75). -/
def everyOther : List ENode → List ENode
  | [] => []
  | [a] => [a]
  | a :: _ :: rest => a :: everyOther rest

/-- `check_dotted` (helpers.py, lines 74-77): every other child whose
start position is at or before the cursor. -/
def check_dotted (children : List ENode) (pos : Pos) : List ENode :=
  (everyOther children).filter (fun n => posLe n.startPos pos)

/-- The inner `import_from` loop of `importer_from_error_statement`
(helpers.py, lines 94-104): walk the nodes until one starts at or
after the cursor, collecting dotted names, relative-dot levels,
plain names, and the `only_modules` flag. -/
def importFromGo : List ENode → Pos → List ENode → Nat → Bool →
    List ENode × Nat × Bool
  | [], _, names, level, om => (names, level, om)
  | n :: rest, pos, names, level, om =>
    if posLe pos n.startPos then (names, level, om)
    else
      match n with
      | .node "dotted_name" _ _ children =>
        importFromGo rest pos (names ++ check_dotted children pos) level om
      | _ =>
        if n.beqStr "." || n.beqStr "..." then
          let v := match n with | .op v _ => v | _ => ""
          importFromGo rest pos names (level + v.length) om
        else
          match n with
          | .name _ => importFromGo rest pos (names ++ [n]) level om
          | _ =>
            if n.beqStr "import" then importFromGo rest pos names level false
            else importFromGo rest pos names level om

/-- The stack loop of `importer_from_error_statement` (helpers.py,
lines 83-104), with the early `(None, 0, False, False)` return when
the cursor sits on the `import` keyword of an `import_name` entry. -/
def importerGo : List (String × List ENode) → Pos → List ENode → Nat →
    Bool → Bool → Except PErr (Option (List ENode) × Nat × Bool × Bool)
  | [], _, names, level, om, un => pure (some names, level, om, un)
  | (typ, nodes) :: rest, pos, names, level, om, un =>
    if typ = "dotted_name" then
      let names := names ++ check_dotted nodes pos
      let un :=
        if (match nodes.getLast? with
            | some n => n.beqStr "."
            | none => false) then true
        else un
      importerGo rest pos names level om un
    else if typ = "import_name" then
      match nodes.head? with
      | none => throw PErr.indexError
      | some n0 =>
        if posLe n0.startPos pos && posLe pos n0.endPos then
          pure (none, 0, false, false)
        else
          importerGo rest pos names level om un
    else if typ = "import_from" then
      let (names, level, om) := importFromGo nodes pos names level om
      importerGo rest pos names level om un
    else
      importerGo rest pos names level om un

/-- `importer_from_error_statement` (helpers.py, lines 73-106). -/
def importer_from_error_statement (es : ErrorStatement) (pos : Pos) :
    Except PErr (Option (List ENode) × Nat × Bool × Bool) :=
  importerGo es.stack pos [] 0 true false

/-- Does one error statement trigger the import-completion path
(helpers.py, lines 65-68)? -/
def errorTriggers (es : ErrorStatement) (pos : Pos) : Bool :=
  (es.first_type = "import_from" || es.first_type = "import_name") &&
  posLt es.first_pos pos && posLe pos es.next_start_pos

/-- `check_error_statements` (helpers.py, lines 62-70): scan the
stacks; on the first import error containing the cursor, delegate to
`importer_from_error_statement`; otherwise return
`(None, 0, False, False)`. -/
def check_error_statements : List ErrorStatement → Pos →
    Except PErr (Option (List ENode) × Nat × Bool × Bool)
  | [], _ => pure (none, 0, false, false)
  | es :: rest, pos =>
    if errorTriggers es pos then importer_from_error_statement es pos
    else check_error_statements rest pos

/-- Modelled from the spec: the token stream of the source `(x)`
(after the appended newline). -/
def toksParen : List Token :=
  [⟨TokType.OP, "(", (1, 0), (1, 1)⟩,
   ⟨TokType.NAME, "x", (1, 1), (1, 2)⟩,
   ⟨TokType.OP, ")", (1, 2), (1, 3)⟩,
   ⟨TokType.NEWLINE, "\n", (1, 3), (1, 4)⟩,
   ⟨TokType.ENDMARKER, "", (2, 0), (2, 0)⟩]

/-! ### The concrete runs the claims inspect -/

/-- A placeholder statement for `Option.getD`; the runs below never
fall back to it (their theorems pin the real values). -/
def emptyStatement : Statement := mkStatement "" [] [] [] [] (1, 0) (1, 0)

/-- The module parsed from `x = 1`. -/
def x1Module : ModuleState :=
  ((parserInit toksX1 none).toOption).getD (initModule none (1, 0))

/-- The single statement of `x = 1`. -/
def x1Stmt : Statement := (x1Module.statements.head?).getD emptyStatement

/-- The assignment-calls run on the `x = 1` statement. -/
def x1AC : ACResult :=
  ((computeAssignmentCalls x1Stmt).toOption).getD ⟨[], 0, []⟩

/-- The `Name` node for the `x` of `x = 1` (its end position is the
end of the `=` lookahead token, as `_parse_dot_name` records it). -/
def xName : Name := ⟨[⟨"x", (1, 0)⟩], (1, 0), (1, 3)⟩

/-- The target tree recorded in `assignment_details` for `x = 1`:
`Array(NOARRAY, [[Call(Name x, NAME)]])`. -/
def xTargetView : CView :=
  .arr NType.NOARRAY []
    [[.call (some (CallVal.vname xName)) NType.NAME none none]]

/-- The tree claim C3 expects there instead:
`Array(NOARRAY, [[Call(1, NUMBER)]])` — the value side, which is what
`get_assignment_calls` returns. -/
def numValueView : CView :=
  .arr NType.NOARRAY []
    [[.call (some (CallVal.vnum 1)) NType.NUMBER none none]]

/-- The kind of the first `Call` of the first field of an `Array`
view (a discriminating projection between the two trees above). -/
def CView.firstCallKind : CView → Option NType
  | .arr _ _ (((.call _ k _ _) :: _) :: _) => some k
  | _ => none

/-- The assignment-detail views of the `x = 1` statement: operator
text paired with the position-free tree. -/
def x1DetailViews : List (String × Option CView) :=
  x1AC.details.map (fun d => (d.1, readView 20 x1AC.heap d.2))

/-- The module parsed from `import x`. -/
def impXModule : ModuleState :=
  ((parserInit toksImportX none).toOption).getD (initModule none (1, 0))

/-- The single `Import` node of `import x`. -/
def impXImport : Import :=
  emitImport (1, 0) (1, 9) (some ⟨[⟨"x", (1, 7)⟩], (1, 7), (1, 9)⟩) none false

/-- The module parsed from `from .. import x, y as z`. -/
def fromModule : ModuleState :=
  ((parserInit toksFrom none).toOption).getD (initModule none (1, 0))

/-- The module parsed from `(x)`. -/
def parenModule : ModuleState :=
  ((parserInit toksParen none).toOption).getD (initModule none (1, 0))

/-- The single statement of `(x)`. -/
def parenStmt : Statement := (parenModule.statements.head?).getD emptyStatement

/-- The assignment-calls run on the `(x)` statement. -/
def parenAC : ACResult :=
  ((computeAssignmentCalls parenStmt).toOption).getD ⟨[], 0, []⟩

/-- The claimed `used_names` characterization (claim C5): every entry
of `used_names[t]` is a `Statement` of the module with a `NamePart`
of text `t` in its token list, and every such statement appears. -/
def claimC5Prop (m : ModuleState) : Prop :=
  ∀ (t : String) (sp : Simple),
    (∃ l, lookupUsed m.used_names t = some l ∧ sp ∈ l) ↔
    (∃ st, sp = Simple.stmt st ∧ st ∈ m.statements ++ m.asserts ∧
           hasNamePart st t = true)

/-! ### Supporting lemmas for the `used_names` bookkeeping -/

theorem lookupUsed_addUsedName_self :
    ∀ (un : List (String × List Simple)) (t : String) (sp : Simple),
      ∃ l, lookupUsed (addUsedName un t sp) t = some l ∧ sp ∈ l
  | [], t, sp => ⟨[sp], by simp [addUsedName, lookupUsed], by simp⟩
  | (t2, ss) :: rest, t, sp => by
    by_cases h : t2 = t
    · subst h
      by_cases hmem : sp ∈ ss
      · exact ⟨ss, by simp [addUsedName, lookupUsed, hmem], hmem⟩
      · exact ⟨ss ++ [sp], by simp [addUsedName, lookupUsed, hmem], by simp⟩
    · obtain ⟨l, hl, hmem⟩ := lookupUsed_addUsedName_self rest t sp
      exact ⟨l, by simp [addUsedName, lookupUsed, h, hl], hmem⟩

theorem lookupUsed_addUsedName_preserve :
    ∀ (un : List (String × List Simple)) (t : String) (sp : Simple)
      (t2 : String) (l2 : List Simple) (s2 : Simple),
      lookupUsed un t2 = some l2 → s2 ∈ l2 →
      ∃ l3, lookupUsed (addUsedName un t sp) t2 = some l3 ∧ s2 ∈ l3
  | [], _, _, _, _, _ => by intro h _; simp [lookupUsed] at h
  | (a, ss) :: rest, t, sp, t2, l2, s2 => by
    intro hl hmem
    by_cases hat : a = t
    · subst hat
      by_cases hat2 : a = t2
      · subst hat2
        simp only [lookupUsed, if_true, eq_self_iff_true, ite_true,
          Option.some.injEq] at hl
        subst hl
        by_cases hspin : sp ∈ ss
        · exact ⟨ss, by simp [addUsedName, lookupUsed, hspin], hmem⟩
        · exact ⟨ss ++ [sp], by simp [addUsedName, lookupUsed, hspin],
            by simp [hmem]⟩
      · simp only [lookupUsed, if_neg hat2] at hl
        exact ⟨l2, by simp [addUsedName, lookupUsed, hat2, hl], hmem⟩
    · by_cases hat2 : a = t2
      · subst hat2
        simp only [lookupUsed, if_true, eq_self_iff_true, ite_true,
          Option.some.injEq] at hl
        subst hl
        exact ⟨ss, by simp [addUsedName, lookupUsed, hat], hmem⟩
      · simp only [lookupUsed, if_neg hat2] at hl
        obtain ⟨l3, hl3, hm3⟩ :=
          lookupUsed_addUsedName_preserve rest t sp t2 l2 s2 hl hmem
        exact ⟨l3, by simp [addUsedName, lookupUsed, hat, hat2, hl3], hm3⟩

theorem foldl_addUsedName_preserve :
    ∀ (ts : List String) (un : List (String × List Simple)) (sp : Simple)
      (t2 : String) (l2 : List Simple) (s2 : Simple),
      lookupUsed un t2 = some l2 → s2 ∈ l2 →
      ∃ l3, lookupUsed (ts.foldl (fun u t => addUsedName u t sp) un) t2
              = some l3 ∧ s2 ∈ l3
  | [], un, sp, t2, l2, s2 => by
    intro hl hmem
    exact ⟨l2, hl, hmem⟩
  | t :: ts, un, sp, t2, l2, s2 => by
    intro hl hmem
    obtain ⟨l3, hl3, hm3⟩ :=
      lookupUsed_addUsedName_preserve un t sp t2 l2 s2 hl hmem
    simpa using foldl_addUsedName_preserve ts (addUsedName un t sp) sp t2 l3
      s2 hl3 hm3

theorem foldl_addUsedName_mem :
    ∀ (ts : List String) (un : List (String × List Simple)) (sp : Simple)
      (t : String), t ∈ ts →
      ∃ l, lookupUsed (ts.foldl (fun u t => addUsedName u t sp) un) t
             = some l ∧ sp ∈ l
  | [], _, _, t => by intro h; simp at h
  | t0 :: ts, un, sp, t => by
    intro h
    rcases List.mem_cons.mp h with h1 | h1
    · subst h1
      obtain ⟨l, hl, hmem⟩ := lookupUsed_addUsedName_self un t sp
      simpa using foldl_addUsedName_preserve ts (addUsedName un t sp) sp t l
        sp hl hmem
    · simpa using foldl_addUsedName_mem ts (addUsedName un t0 sp) sp t h1

/-! ### The claims -/

/-- C1: the spec claims `Parser(source, ...)` completes normally for
every input and no exception propagates.  The code contradicts it:
on the source `assert` the dispatched `assert` branch receives `None`
from `_parse_statement` and executes `stmt.parent = ...`
unconditionally (parsing.py, line 1941), so an `AttributeError`
escapes `Parser.__init__`, whose boundary catches only
`MultiLevelStopIteration`/`StopIteration` (lines 1282-1288).  The
embedded run evaluates the code at the failing input. -/
theorem claim_C1 :
    parserInit toksAssert none = Except.error PErr.attributeError := by
  rfl

/-- C2 counterexample: for an absent path the claim's predicate
("path is absent or does not end with `.py`") holds, yet
`is_builtin` returns `false` — `not (path is None or ...)` is false
when the path is `None`.  So the claimed equivalence fails at
`path = None`. -/
theorem claim_C2_counterexample :
    is_builtin none = false ∧ specBuiltinPred none := by
  exact ⟨rfl, Or.inl rfl⟩

/-- C2 (amended): `is_builtin()` is true iff the path is PRESENT and
does not end with `.py`. -/
theorem claim_C2 :
    ∀ path : Option String,
      is_builtin path = true ↔
      ∃ p, path = some p ∧ strEndsWith p ".py" = false := by
  intro path
  cases path with
  | none => simp [is_builtin]
  | some p =>
    simp only [is_builtin, Option.isNone_some, Bool.false_or, Option.getD_some,
      Bool.not_eq_true']
    constructor
    · intro h
      exact ⟨p, rfl, h⟩
    · rintro ⟨q, hq, hq2⟩
      cases Option.some.injEq .. ▸ hq
      simpa using hq2

/-- C3 counterexample: parsing `x = 1` does yield one statement, but
its `assignment_details` pairs `=` with the TARGET tree
`Array(NOARRAY, [[Call(Name x, NAME)]])` (the `top` accumulated
before the operator, parsing.py line 795), not with the claimed
`Array(NOARRAY, [[Call(1, NUMBER)]])`. -/
theorem claim_C3_counterexample :
    x1Module.statements.length = 1 ∧
    x1DetailViews ≠ [("=", some numValueView)] := by
  refine ⟨rfl, ?_⟩
  intro h
  have hL : x1DetailViews = [("=", some xTargetView)] := by rfl
  rw [hL] at h
  simp only [List.cons.injEq, Prod.mk.injEq, Option.some.injEq] at h
  exact absurd (congrArg CView.firstCallKind h.1.2) (by decide)

/-- C3 (amended): parsing `x = 1` yields a module with exactly one
statement; its `set_vars` is `["x"]`; after lazy sub-parsing its
`assignment_details` equals `[("=", Array(NOARRAY, [[Call(Name x,
NAME)]]))]` — the assignment target — while `get_assignment_calls`
returns `Array(NOARRAY, [[Call(1, NUMBER)]])`, the value side holding
the single NUMBER call for the literal 1. -/
theorem claim_C3 :
    x1Module.statements.length = 1 ∧
    x1Stmt.set_vars.map Name.get_code = ["x"] ∧
    x1DetailViews = [("=", some xTargetView)] ∧
    readView 20 x1AC.heap x1AC.top = some numValueView := by
  exact ⟨rfl, rfl, rfl, rfl⟩

/-- C4: parsing `from .. import x, y as z` yields exactly two
Import nodes; both have `relative_count == 2`, `from_ns` absent and
`star == false`; the second one's alias reads `z`. -/
theorem claim_C4 :
    fromModule.imports.length = 2 ∧
    fromModule.imports.map (·.relative_count) = [2, 2] ∧
    fromModule.imports.map (·.from_ns) = [none, none] ∧
    fromModule.imports.map (·.star) = [false, false] ∧
    fromModule.imports.map (fun i => i.«alias».map Name.get_code)
      = [none, some "z"] := by
  exact ⟨rfl, rfl, rfl, rfl, rfl⟩

/-- C5 counterexample: on `import x` the module has no statements at
all, yet `used_names["x"]` is the nonempty set holding the `Import`
node (the parser also registers imports through `_check_user_stmt`,
parsing.py lines 1804, 1839), so `used_names[t]` is NOT exactly the
set of Statements with a NamePart `t`. -/
theorem claim_C5_counterexample :
    impXModule.statements = [] ∧ impXModule.asserts = [] ∧
    lookupUsed impXModule.used_names "x" = some [Simple.imp impXImport] ∧
    ¬ claimC5Prop impXModule := by
  refine ⟨rfl, rfl, rfl, ?_⟩
  intro h
  have h2 := (h "x" (Simple.imp impXImport)).mp
    ⟨[Simple.imp impXImport], rfl, by simp⟩
  obtain ⟨st, _, hmem, _⟩ := h2
  have he : impXModule.statements ++ impXModule.asserts = [] := rfl
  rw [he] at hmem
  exact absurd hmem (List.not_mem_nil st)

/-- C5 (amended): `used_names[t]` records the nodes — Statements and
Imports alike — that were passed to `_check_user_stmt` while `t` was
pending in `temp_used_names`: every such node lands in
`used_names[t]`; on `import x` the entry for `x` is exactly the
`Import` node, not a Statement. -/
theorem claim_C5 :
    (∀ (m : ModuleState) (sp : Simple) (t : String),
        t ∈ m.temp_used_names →
        ∃ l, lookupUsed (check_user_stmt m sp).used_names t = some l ∧
             sp ∈ l) ∧
    lookupUsed impXModule.used_names "x" = some [Simple.imp impXImport] := by
  refine ⟨?_, rfl⟩
  intro m sp t ht
  exact foldl_addUsedName_mem m.temp_used_names m.used_names sp t ht

/-- C5 witness. -/
theorem claim_C5_witness :
    (∃ l, lookupUsed (check_user_stmt
        { initModule none (1, 0) with temp_used_names := ["x"] }
        (Simple.imp impXImport)).used_names "x" = some l ∧
      Simple.imp impXImport ∈ l) ∧
    lookupUsed impXModule.used_names "x" = some [Simple.imp impXImport] :=
  ⟨claim_C5.1 { initModule none (1, 0) with temp_used_names := ["x"] }
      (Simple.imp impXImport) "x" (by simp),
   claim_C5.2⟩

/-- C6: assigning a parent to the head of a flow chain propagates it
to every element of the chain (so afterwards all tails share the
head's parent), and `set_next` preserves the shared-parent
invariant: the newly attached tail chain receives the attach point's
parent through the propagating setter. -/
theorem claim_C6 :
    ∀ (α : Type) (f g : Flow α) (v : Option α),
      ((f.setParent v).sameParent ∧
        ∀ p ∈ (f.setParent v).parents, p = v) ∧
      (f.sameParent → (f.set_next g).sameParent) := by
  intro α f g v
  exact ⟨⟨Flow.sameParent_setParent f v, Flow.parents_setParent f v⟩,
         Flow.sameParent_set_next f g⟩

/-- C6 witness. -/
theorem claim_C6_witness :
    (((Flow.mk (some 1) (some (Flow.mk (some 1) none)) : Flow Nat).setParent
        (some 5)).sameParent ∧
      ∀ p ∈ ((Flow.mk (some 1) (some (Flow.mk (some 1) none)) :
          Flow Nat).setParent (some 5)).parents, p = some 5) ∧
    ((Flow.mk (some 1) (some (Flow.mk (some 1) none)) : Flow Nat).set_next
        (Flow.mk (some 9) none)).sameParent :=
  ⟨(claim_C6 Nat (Flow.mk (some 1) (some (Flow.mk (some 1) none)))
      (Flow.mk (some 9) none) (some 5)).1,
   (claim_C6 Nat (Flow.mk (some 1) (some (Flow.mk (some 1) none)))
      (Flow.mk (some 9) none) (some 5)).2
     (by intro p hp; simpa [Flow.parents, Flow.headParent] using hp)⟩

/-- C7: `get_assignment_calls` is idempotent — once a call has
succeeded, calling again returns the identical cached tree and
leaves the statement state untouched (`_assignment_calls_calculated`
short-circuits the recomputation, parsing.py lines 764-765). -/
theorem claim_C7 :
    ∀ (s : StmtState) (t : Option ACResult) (s2 : StmtState),
      Statement.get_assignment_calls s = Except.ok (t, s2) →
      Statement.get_assignment_calls s2 = Except.ok (t, s2) := by
  intro s t s2 h
  by_cases hc : s.assignment_calls_calculated
  · unfold Statement.get_assignment_calls at h ⊢
    rw [if_pos hc] at h
    have h2 : (s.assignment_calls, s) = (t, s2) := by
      simpa [pure, Except.pure] using h
    obtain ⟨h3, h4⟩ := Prod.mk.injEq .. ▸ h2
    subst h3
    subst h4
    rw [if_pos hc]
    rfl
  · unfold Statement.get_assignment_calls at h ⊢
    rw [if_neg hc] at h
    cases hcomp : computeAssignmentCalls s.base with
    | error e =>
      rw [hcomp] at h
      simp [Bind.bind, Except.bind] at h
    | ok r =>
      rw [hcomp] at h
      simp only [Bind.bind, Except.bind, pure, Except.pure] at h
      have h2 := Except.ok.injEq .. ▸ h
      obtain ⟨h3, h4⟩ := Prod.mk.injEq .. ▸ h2
      subst h3
      rw [← h4]
      simp [pure, Except.pure]

/-- C7 witness: the lazy run on the `x = 1` statement. -/
theorem claim_C7_witness :
    Statement.get_assignment_calls
      (((Statement.get_assignment_calls (initStmtState x1Stmt)).toOption.getD
          (none, initStmtState x1Stmt)).2) =
    Except.ok
      (((Statement.get_assignment_calls (initStmtState x1Stmt)).toOption.getD
          (none, initStmtState x1Stmt))) :=
  claim_C7 (initStmtState x1Stmt) _ _ (by rfl)

/-- C8: every `Import` the parser emits satisfies `star → namespace
absent`: a `*` triple in the `from` branch sets `star` and clears the
namespace (parsing.py lines 1833-1835), and the plain-`import`
branch always emits `star = false`. -/
theorem claim_C8 :
    ∀ (sp ep : Pos) (mod : Option Name) (rc : Nat) (d : Bool)
      (trip : Option Name × Option Name × Bool),
      ((emitFromImport sp ep mod rc d trip).star = true →
        (emitFromImport sp ep mod rc d trip).namespc = none) ∧
      (emitImport sp ep trip.1 trip.2.1 d).star = false := by
  intro sp ep mod rc d trip
  obtain ⟨name, al, d2⟩ := trip
  refine ⟨?_, rfl⟩
  intro h
  simp only [emitFromImport] at h ⊢
  rw [if_pos h]

/-- C8 witness: a starred triple. -/
theorem claim_C8_witness :
    (emitFromImport (1, 0) (1, 16) none 0 false
      (some ⟨[⟨"*", (1, 12)⟩], (1, 12), (1, 14)⟩, none, false)).namespc
      = none ∧
    (emitImport (1, 0) (1, 16)
      (some ⟨[⟨"*", (1, 12)⟩], (1, 12), (1, 14)⟩) none false).star = false :=
  ⟨(claim_C8 (1, 0) (1, 16) none 0 false
      (some ⟨[⟨"*", (1, 12)⟩], (1, 12), (1, 14)⟩, none, false)).1 (by rfl),
   (claim_C8 (1, 0) (1, 16) none 0 false
      (some ⟨[⟨"*", (1, 12)⟩], (1, 12), (1, 14)⟩, none, false)).2⟩

/-- C9: `add_to_current_field` on an empty TUPLE array first demotes
the type to NOARRAY and then appends the token as the sole element of
the newly created first field (parsing.py lines 1081-1090);
consequently the parenthesized expression `(x)` sub-parses to a
NOARRAY array (holding the single NOARRAY group around `Call x`),
not a TUPLE. -/
theorem claim_C9 :
    (∀ (n : HNode) (el : HElem), n.isArray = true → n.values = [] →
      n.ntype = NType.TUPLE →
      (n.add_to_current_field el).ntype = NType.NOARRAY ∧
      (n.add_to_current_field el).values = [[el]]) ∧
    readView 20 parenAC.heap parenAC.top =
      some (.arr NType.NOARRAY []
        [[.arr NType.NOARRAY []
          [[.call (some (CallVal.vname ⟨[⟨"x", (1, 1)⟩], (1, 1), (1, 3)⟩))
              NType.NAME none none]]]]) := by
  refine ⟨?_, rfl⟩
  intro n el _ hv ht
  unfold HNode.add_to_current_field
  rw [if_pos hv, if_pos ht]
  exact ⟨rfl, by simp [hv]⟩

/-- C9 witness: a fresh empty tuple array. -/
theorem claim_C9_witness :
    ((mkArray (1, 0) NType.TUPLE none).add_to_current_field
        (HElem.rawtok "y")).ntype = NType.NOARRAY ∧
    ((mkArray (1, 0) NType.TUPLE none).add_to_current_field
        (HElem.rawtok "y")).values = [[HElem.rawtok "y"]] :=
  (claim_C9.1 (mkArray (1, 0) NType.TUPLE none) (HElem.rawtok "y")
    rfl rfl rfl)

/-- C10: when no entry of the error-statement stacks is an
`import_from`/`import_name` whose `first_pos < pos <=
next_start_pos`, `check_error_statements` returns exactly
`(None, 0, False, False)`; in particular the empty stack list never
raises and returns that value. -/
theorem claim_C10 :
    ∀ (sts : List ErrorStatement) (pos : Pos),
      ((∀ es ∈ sts, errorTriggers es pos = false) →
        check_error_statements sts pos
          = Except.ok (none, 0, false, false)) ∧
      check_error_statements [] pos = Except.ok (none, 0, false, false) := by
  intro sts pos
  refine ⟨?_, rfl⟩
  induction sts with
  | nil => intro _; rfl
  | cons es rest ih =>
    intro h
    have h1 := h es (by simp)
    unfold check_error_statements
    rw [if_neg (by simp [h1])]
    exact ih (fun e he => h e (by simp [he]))

/-- C10 witness: a stack whose only entry lies after the cursor. -/
theorem claim_C10_witness :
    check_error_statements
      [⟨"import_from", (5, 0), (6, 0), []⟩] (1, 0)
      = Except.ok (none, 0, false, false) :=
  (claim_C10 [⟨"import_from", (5, 0), (6, 0), []⟩] (1, 0)).1 (by decide)

end Jedi
